import Mathlib

/-!
Verification of the Dropee backend core: the nearest-vehicle assigner
(assigner.js) and the demand rebalancer (rebalancer.js), shallowly embedded
in Lean.  Machine floats are modelled by rationals (with the great-circle
distance function kept abstract as a parameter, since none of the control
flow of the matcher or planner depends on its numeric values), and the
haversine formula itself is modelled over the reals in the final section.
JavaScript falsiness of numeric fields is modelled as equality with zero,
and absent or null fields as Option.none.  The Firestore store is a pair of
association lists keyed by document id; a Firestore transaction is a pure
function returning Except, an error meaning that the transaction aborted
with no write applied.  The stable Array.prototype.sort is modelled by
List.insertionSort, which is stable and agrees with every stable sort on
every consistent comparator.
-/

namespace Dropee

/-! ### JavaScript numeric values and parseFloat, as used by the assigner -/

/-- The value of a JavaScript floating point expression: a finite number
(modelled as a rational), an infinity, or NaN. -/
inductive FloatVal where
  | finite (q : ℚ)
  | posInf
  | negInf
  | nan
  deriving DecidableEq, Repr

/-- JS isNaN on an already-numeric value. -/
def FloatVal.isNaN : FloatVal → Bool
  | .nan => true
  | _ => false

/-- Whether a JS number is finite (excludes NaN and both infinities). -/
def FloatVal.isFinite : FloatVal → Bool
  | .finite _ => true
  | _ => false

/-- A raw value stored in a booking coordinate field: a number, or a string
that parseFloat turns into a finite number, an infinity, or NaN. -/
inductive RawVal where
  | num (v : FloatVal)
  | strNum (q : ℚ)
  | strInf
  | strNegInf
  | strBad
  deriving DecidableEq, Repr

/-- JS parseFloat applied to a coordinate field (numbers are stringified and
reparsed, which is the identity on them; "Infinity" parses to Infinity;
non-numeric strings parse to NaN). -/
def parseFloat : RawVal → FloatVal
  | .num v => v
  | .strNum q => .finite q
  | .strInf => .posInf
  | .strNegInf => .negInf
  | .strBad => .nan

/-! ### Document model for the assigner -/

/-- A latitude/longitude pair whose components are known numbers. -/
structure Coord where
  lat : ℚ
  lng : ℚ
  deriving DecidableEq, Repr

/-- A booking pickup object; each coordinate field may be null/undefined. -/
structure RawPickup where
  lat : Option RawVal
  lng : Option RawVal
  deriving DecidableEq, Repr

/-- A booking document.  Fields not set in the store are none. -/
structure Booking where
  status : String
  pickup : Option RawPickup
  number : Option String
  assignedVehicleId : Option String
  assignedDriverId : Option String
  verificationCode : Option String
  assignedAt : Option Nat
  deriving DecidableEq, Repr

/-- A vehicle document.  currentPassengers is none when the field is absent
or not an array (the code treats both as the empty list). -/
structure Vehicle where
  status : String
  driverId : Option String
  location : Option Coord
  currentPassengers : Option (List String)
  fcmToken : Option String
  deriving DecidableEq, Repr

/-- The passenger list actually used by the code:
Array.isArray(v.currentPassengers) ? v.currentPassengers : []. -/
def Vehicle.passengers (v : Vehicle) : List String :=
  v.currentPassengers.getD []

/-- The two collections read and written by the assigner. -/
structure DB where
  bookings : List (String × Booking)
  vehicles : List (String × Vehicle)
  deriving DecidableEq, Repr

/-- Fetch a document by id (Firestore ids are unique; on an association list
we read the first binding). -/
def lookupDoc (l : List (String × α)) (id : String) : Option α :=
  (l.find? (fun p => p.1 == id)).map (·.2)

/-- Apply a field update to the document(s) with the given id. -/
def updateDoc (l : List (String × α)) (id : String) (f : α → α) :
    List (String × α) :=
  l.map (fun p => if p.1 == id then (p.1, f p.2) else p)

/-! ### Candidate scan and ranking -/

/-- The candidate record pushed by the vehicle scan. -/
structure Candidate where
  id : String
  driverId : Option String
  dist : ℚ
  passengerCount : ℕ
  fcmToken : Option String
  deriving DecidableEq, Repr

/-- The sort comparator of assigner.js, as the relation
"a sorts no later than b" (comparator result at most 0): if the distances
differ by less than 0.001 km compare carried-passenger counts, otherwise
compare distances. -/
def candLe (a b : Candidate) : Prop :=
  if |a.dist - b.dist| < 1/1000 then a.passengerCount ≤ b.passengerCount
  else a.dist ≤ b.dist

instance : DecidableRel candLe := fun a b => by
  unfold candLe; infer_instance

/-- candidates[0] after the stable sort by the comparator. -/
def chooseCandidate (l : List Candidate) : Option Candidate :=
  (l.insertionSort candLe).head?

/-- The candidate scan over the status == "idle" query result: skip a
vehicle when its passenger list is full (length at least 7) or its location
is missing; otherwise record its distance to the pickup.  distFn abstracts
haversineDistanceKm(v.location.lat, v.location.lng, pickupLat, pickupLng). -/
def mkCandidates (distFn : ℚ → ℚ → FloatVal → FloatVal → ℚ)
    (vehicles : List (String × Vehicle)) (plat plng : FloatVal) :
    List Candidate :=
  vehicles.filterMap (fun p =>
    let v := p.2
    if v.status == "idle" then
      if 7 ≤ v.passengers.length then none
      else
        match v.location with
        | none => none
        | some loc =>
          some { id := p.1
                 driverId := v.driverId
                 dist := distFn loc.lat loc.lng plat plng
                 passengerCount := v.passengers.length
                 fcmToken := v.fcmToken }
    else none)

/-! ### The transactional assignment step -/

/-- chosen.driverId || null : an empty driverId string is falsy and becomes
null. -/
def truthyDriverId : Option String → Option String
  | none => none
  | some d => if d = "" then none else some d

/-- The last (at most) four characters of a string, JS s.slice(-4). -/
def slice4 (s : String) : String :=
  s.drop (s.length - 4)

/-- The body of db.runTransaction in assignDriverForBooking, run against the
store state at transaction time.  An error result models a thrown error:
the transaction aborts and no buffered update is applied. -/
def txAssign (s : DB) (bookingId chosenId : String)
    (chosenDriverId : Option String) (rand : String) : Except String DB :=
  match lookupDoc s.bookings bookingId with
  | none => .error "Booking disappeared"
  | some bData =>
    if bData.status ≠ "pending" then .error "Booking already handled"
    else
      match lookupDoc s.vehicles chosenId with
      | none => .error "Vehicle disappeared"
      | some vData =>
        let passengers := vData.currentPassengers.getD []
        if 7 ≤ passengers.length then .error "Vehicle full at transaction time"
        else
          let phone := bData.number.getD ""
          let verificationCode :=
            if slice4 phone = "" then rand else slice4 phone
          .ok { bookings :=
                  updateDoc s.bookings bookingId (fun b =>
                    { b with
                      assignedVehicleId := some chosenId
                      assignedDriverId := truthyDriverId chosenDriverId
                      status := "assigned"
                      verificationCode := some verificationCode
                      assignedAt := some 1 })
                vehicles :=
                  updateDoc s.vehicles chosenId (fun v =>
                    { v with
                      currentPassengers := some (passengers ++ [bookingId]) }) }

/-- The observable outcome of one call to assignDriverForBooking.  The err
cases model a rejected promise (a thrown error), the noop cases a normal
return with nothing assigned. -/
inductive AssignOutcome where
  | errNotFound
  | noopNotPending
  | errMissingPickup
  | errInvalidPickup
  | noopNoVehicles
  | errConflict (msg : String)
  | assigned (vehicleId : String)
  deriving DecidableEq, Repr

/-- assignDriverForBooking with an explicit interleaving point: phase one
(the booking load, validation and candidate scan, lines 20-73) reads the
snapshot s, while the transaction (lines 76-104) runs against the possibly
concurrently-modified state s2.  The returned DB is the store state after
the call: writes happen only inside a committed transaction, so every
non-assigned outcome leaves the state at s2. -/
def assignInterleaved (distFn : ℚ → ℚ → FloatVal → FloatVal → ℚ)
    (rand : String) (s s2 : DB) (bookingId : String) : AssignOutcome × DB :=
  match lookupDoc s.bookings bookingId with
  | none => (.errNotFound, s2)
  | some booking =>
    if booking.status ≠ "pending" then (.noopNotPending, s2)
    else
      match booking.pickup with
      | none => (.errMissingPickup, s2)
      | some p =>
        match p.lat, p.lng with
        | some rlat, some rlng =>
          let plat := parseFloat rlat
          let plng := parseFloat rlng
          if plat.isNaN || plng.isNaN then (.errInvalidPickup, s2)
          else
            match chooseCandidate (mkCandidates distFn s.vehicles plat plng) with
            | none => (.noopNoVehicles, s2)
            | some chosen =>
              match txAssign s2 bookingId chosen.id chosen.driverId rand with
              | .error e => (.errConflict e, s2)
              | .ok s3 => (.assigned chosen.id, s3)
        | _, _ => (.errMissingPickup, s2)

/-- The sequential call: no concurrent modification between the candidate
scan and the transaction. -/
def assignDriverForBooking (distFn : ℚ → ℚ → FloatVal → FloatVal → ℚ)
    (rand : String) (s : DB) (bookingId : String) : AssignOutcome × DB :=
  assignInterleaved distFn rand s s bookingId

/-! ### Rebalancer document model (rebalancer.js) -/

/-- A recent booking as consumed by the rebalancer: only the pickup object
matters (the createdAt window filter happens in the Firestore query, which
is the snapshot boundary of this embedding). -/
structure RBooking where
  pickup : Option Coord
  deriving DecidableEq, Repr

/-- A vehicle as consumed by the rebalancer, including the fields written by
applyRebalanceSuggestion. -/
structure RVehicle where
  id : String
  status : String
  location : Option Coord
  currentPassengers : Option (List String)
  targetLocation : Option Coord
  rebalanceReason : Option String
  rebalanceTimestamp : Option Nat
  deriving DecidableEq, Repr

/-- A demand hotspot: the first-seen representative pickup and the number of
nearby recent bookings. -/
structure Hotspot where
  location : Coord
  count : ℕ
  deriving DecidableEq, Repr

/-- A rebalance suggestion record. -/
structure Suggestion where
  vehicleId : String
  currentLocation : Coord
  targetLocation : Coord
  priority : ℤ
  distance : ℚ
  reason : String
  deriving DecidableEq, Repr

/-- getIdleVehicles: the status == "idle" query, then keep only vehicles
whose currentPassengers field is falsy (absent) or an empty array. -/
def getIdleVehicles (vehicles : List RVehicle) : List RVehicle :=
  vehicles.filter (fun v =>
    v.status == "idle" &&
      (v.currentPassengers == none || v.currentPassengers == some []))

/-- A numeric pickup/location field is skipped when absent or when either
coordinate is falsy, i.e. equal to 0. -/
def usableCoord : Option Coord → Option Coord
  | none => none
  | some c => if c.lat = 0 ∨ c.lng = 0 then none else some c

/-- Math.round: round half toward positive infinity. -/
def jsRound (q : ℚ) : ℤ := ⌊q + 1/2⌋

/-- The linear scan of identifyHotspots over the existing hotspots in
insertion order: the first hotspot within 0.5 km of the point has its count
incremented (and its representative coordinate kept); none returned when no
hotspot is that close. -/
def bumpFirstClose (distFn : Coord → Coord → ℚ) (p : Coord) :
    List Hotspot → Option (List Hotspot)
  | [] => none
  | h :: hs =>
    if distFn h.location p < 1/2 then
      some ({ h with count := h.count + 1 } :: hs)
    else
      (bumpFirstClose distFn p hs).map (h :: ·)

/-- One iteration of the identifyHotspots forEach: skip the booking when its
pickup is missing or has a falsy coordinate; otherwise increment the first
close hotspot, or append a fresh hotspot with count 1.  The JS object keyed
by the toFixed(4) coordinates, iterated with for..in, behaves as this
insertion-ordered list: keys are non-index strings, so iteration follows
insertion order, and a fresh key is inserted exactly when no existing
hotspot is within 0.5 km. -/
def clusterStep (distFn : Coord → Coord → ℚ) (hs : List Hotspot)
    (b : RBooking) : List Hotspot :=
  match usableCoord b.pickup with
  | none => hs
  | some p =>
    match bumpFirstClose distFn p hs with
    | some hs2 => hs2
    | none => hs ++ [{ location := p, count := 1 }]

/-- "b sorts no later than a" for the comparator (a, b) => b.count - a.count:
count descending. -/
def hotGe (a b : Hotspot) : Prop := b.count ≤ a.count

instance : DecidableRel hotGe := fun a b => by unfold hotGe; infer_instance

instance : IsTotal Hotspot hotGe :=
  ⟨fun a b => le_total b.count a.count⟩

instance : IsTrans Hotspot hotGe :=
  ⟨fun _ _ _ h1 h2 => le_trans h2 h1⟩

/-- identifyHotspots: single-pass greedy clustering of the pickup points in
input order, then sort by count descending. -/
def identifyHotspots (distFn : Coord → Coord → ℚ)
    (recentBookings : List RBooking) : List Hotspot :=
  (recentBookings.foldl (clusterStep distFn) []).insertionSort hotGe

/-- The "another idle vehicle already sits within 1 km of this hotspot"
test: every other idle vehicle with a location object, at distance below
1 km. -/
def anotherVehicleNearby (distFn : Coord → Coord → ℚ)
    (idleVehicles : List RVehicle) (vehicle : RVehicle) (h : Hotspot) :
    Bool :=
  idleVehicles.any (fun v =>
    if v.id == vehicle.id then false
    else
      match v.location with
      | none => false
      | some l => decide (distFn l h.location < 1))

/-- The suggestion record pushed for a vehicle and hotspot pair. -/
def mkSuggestion (vehicle : RVehicle) (loc : Coord) (h : Hotspot)
    (d : ℚ) : Suggestion :=
  { vehicleId := vehicle.id
    currentLocation := loc
    targetLocation := h.location
    priority := min 10 (jsRound ((h.count * 5 : ℚ) / max 1 d))
    distance := d
    reason := "High demand area with " ++ toString h.count ++
      " recent bookings" }

/-- The inner hotspot loop for one vehicle: skip hotspots with another idle
vehicle nearby, and hotspots the vehicle is already at (distance at most
0.5 km); push a suggestion for the first remaining hotspot and stop. -/
def findSuggestion (distFn : Coord → Coord → ℚ)
    (idleVehicles : List RVehicle) (vehicle : RVehicle) (loc : Coord) :
    List Hotspot → Option Suggestion
  | [] => none
  | h :: hs =>
    if anotherVehicleNearby distFn idleVehicles vehicle h then
      findSuggestion distFn idleVehicles vehicle loc hs
    else
      let d := distFn loc h.location
      if 1/2 < d then some (mkSuggestion vehicle loc h d)
      else findSuggestion distFn idleVehicles vehicle loc hs

/-- "b sorts no later than a" for (a, b) => b.priority - a.priority:
priority descending. -/
def sugGe (a b : Suggestion) : Prop := b.priority ≤ a.priority

instance : DecidableRel sugGe := fun a b => by unfold sugGe; infer_instance

instance : IsTotal Suggestion sugGe :=
  ⟨fun a b => le_total b.priority a.priority⟩

instance : IsTrans Suggestion sugGe :=
  ⟨fun _ _ _ h1 h2 => le_trans h2 h1⟩

/-- The body of the idle-vehicle forEach for one vehicle: the early return
on a missing or falsy vehicle location, then the hotspot scan. -/
def vehicleSuggestion (distFn : Coord → Coord → ℚ)
    (idleVehicles : List RVehicle) (hotspots : List Hotspot)
    (vehicle : RVehicle) : Option Suggestion :=
  match usableCoord vehicle.location with
  | none => none
  | some loc => findSuggestion distFn idleVehicles vehicle loc hotspots

/-- generateRebalanceSuggestions over the two query snapshots: empty when
there is no idle vehicle or no recent booking; otherwise one suggestion per
idle vehicle with a usable location, via the first qualifying hotspot;
finally sorted by priority descending. -/
def generateRebalanceSuggestions (distFn : Coord → Coord → ℚ)
    (vehicles : List RVehicle) (recentBookings : List RBooking) :
    List Suggestion :=
  if (getIdleVehicles vehicles).isEmpty || recentBookings.isEmpty then []
  else
    ((getIdleVehicles vehicles).foldl
      (fun acc vehicle =>
        match vehicleSuggestion distFn (getIdleVehicles vehicles)
            (identifyHotspots distFn recentBookings) vehicle with
        | none => acc
        | some sug => acc ++ [sug]) []).insertionSort sugGe

/-- applyRebalanceSuggestion: write the target location, reason and
timestamp onto the suggested vehicle document. -/
def applyRebalanceSuggestion (vehicles : List RVehicle)
    (sug : Suggestion) : List RVehicle :=
  vehicles.map (fun v =>
    if v.id == sug.vehicleId then
      { v with
        targetLocation := some sug.targetLocation
        rebalanceReason := some sug.reason
        rebalanceTimestamp := some 1 }
    else v)

/-- runRebalancer: compute the suggestions; when autoApply is set and there
are any, apply the first three of the priority-sorted list; return the full
list, how many were applied, and the vehicle collection afterwards. -/
def runRebalancer (distFn : Coord → Coord → ℚ) (vehicles : List RVehicle)
    (recentBookings : List RBooking) (autoApply : Bool) :
    List Suggestion × ℕ × List RVehicle :=
  let suggestions := generateRebalanceSuggestions distFn vehicles recentBookings
  if autoApply && !suggestions.isEmpty then
    let topSuggestions := suggestions.take 3
    (suggestions, topSuggestions.length,
      topSuggestions.foldl applyRebalanceSuggestion vehicles)
  else (suggestions, 0, vehicles)

/-- Fetch a rebalancer vehicle by id. -/
def lookupRVehicle (vehicles : List RVehicle) (id : String) :
    Option RVehicle :=
  vehicles.find? (fun v => v.id == id)

/-! ### The haversine distance over the reals (assigner.js lines 2-15) -/

/-- Degrees to radians: (x * Math.PI) / 180. -/
noncomputable def toRad (x : ℝ) : ℝ := x * Real.pi / 180

open Classical in
/-- JS Math.atan2(y, x) over the reals (signed zeros do not exist here; the
x = 0 column follows the sign of y as in IEEE). -/
noncomputable def atan2 (y x : ℝ) : ℝ :=
  if 0 < x then Real.arctan (y / x)
  else if x < 0 then
    (if 0 ≤ y then Real.arctan (y / x) + Real.pi
     else Real.arctan (y / x) - Real.pi)
  else
    (if 0 < y then Real.pi / 2
     else if y < 0 then -(Real.pi / 2)
     else 0)

/-- The intermediate value a of the haversine formula:
sin(dLat/2)^2 + cos(lat1) * cos(lat2) * sin(dLon/2)^2, written with the
products of assigner.js. -/
noncomputable def haversineA (lat1 lon1 lat2 lon2 : ℝ) : ℝ :=
  Real.sin (toRad (lat2 - lat1) / 2) * Real.sin (toRad (lat2 - lat1) / 2) +
    Real.cos (toRad lat1) * Real.cos (toRad lat2) *
      Real.sin (toRad (lon2 - lon1) / 2) * Real.sin (toRad (lon2 - lon1) / 2)

/-- haversineDistanceKm: R * c with R = 6371 km and
c = 2 * atan2(sqrt(a), sqrt(1 - a)). -/
noncomputable def haversineDistanceKm (lat1 lon1 lat2 lon2 : ℝ) : ℝ :=
  6371 *
    (2 * atan2 (Real.sqrt (haversineA lat1 lon1 lat2 lon2))
      (Real.sqrt (1 - haversineA lat1 lon1 lat2 lon2)))

/-! ### Theorems -/

/-- The spherical inner product sin a * sin b + cos a * cos b * t is at most
1 whenever t lies in [-1, 1] (Cauchy-Schwarz for two unit vectors). -/
lemma sph_inner_le_one (a b t : ℝ) (ht1 : -1 ≤ t) (ht2 : t ≤ 1) :
    Real.sin a * Real.sin b + Real.cos a * Real.cos b * t ≤ 1 := by
  nlinarith [Real.sin_sq_add_cos_sq a, Real.sin_sq_add_cos_sq b,
    sq_nonneg (Real.sin a - Real.sin b),
    mul_nonneg (by linarith : (0:ℝ) ≤ 1 - t)
      (sq_nonneg (Real.cos a + Real.cos b)),
    mul_nonneg (by linarith : (0:ℝ) ≤ 1 + t)
      (sq_nonneg (Real.cos a - Real.cos b))]

/-- Lower counterpart of sph_inner_le_one. -/
lemma neg_one_le_sph_inner (a b t : ℝ) (ht1 : -1 ≤ t) (ht2 : t ≤ 1) :
    -1 ≤ Real.sin a * Real.sin b + Real.cos a * Real.cos b * t := by
  nlinarith [Real.sin_sq_add_cos_sq a, Real.sin_sq_add_cos_sq b,
    sq_nonneg (Real.sin a + Real.sin b),
    mul_nonneg (by linarith : (0:ℝ) ≤ 1 - t)
      (sq_nonneg (Real.cos a - Real.cos b)),
    mul_nonneg (by linarith : (0:ℝ) ≤ 1 + t)
      (sq_nonneg (Real.cos a + Real.cos b))]

/-- The haversine intermediate value rewritten through the half-angle and
subtraction formulas: a = (1 - S) / 2 with S the spherical inner product of
the two direction vectors. -/
lemma haversineA_eq (lat1 lon1 lat2 lon2 : ℝ) :
    haversineA lat1 lon1 lat2 lon2 =
      (1 - (Real.sin (toRad lat1) * Real.sin (toRad lat2) +
        Real.cos (toRad lat1) * Real.cos (toRad lat2) *
          Real.cos (toRad lon2 - toRad lon1))) / 2 := by
  have hu : toRad (lat2 - lat1) = toRad lat2 - toRad lat1 := by
    unfold toRad; ring
  have hw : toRad (lon2 - lon1) = toRad lon2 - toRad lon1 := by
    unfold toRad; ring
  have hs1 := Real.sin_sq_eq_half_sub ((toRad lat2 - toRad lat1) / 2)
  have hs2 := Real.sin_sq_eq_half_sub ((toRad lon2 - toRad lon1) / 2)
  rw [show 2 * ((toRad lat2 - toRad lat1) / 2) = toRad lat2 - toRad lat1
    by ring] at hs1
  rw [show 2 * ((toRad lon2 - toRad lon1) / 2) = toRad lon2 - toRad lon1
    by ring] at hs2
  have hc := Real.cos_sub (toRad lat2) (toRad lat1)
  unfold haversineA
  rw [hu, hw]
  linear_combination hs1 +
    (Real.cos (toRad lat1) * Real.cos (toRad lat2)) * hs2 - hc / 2

/-- Math.atan2 of two nonnegative arguments is nonnegative. -/
lemma atan2_nonneg {y x : ℝ} (hy : 0 ≤ y) (hx : 0 ≤ x) : 0 ≤ atan2 y x := by
  unfold atan2
  rcases lt_or_eq_of_le hx with h | h
  · rw [if_pos h]
    calc (0:ℝ) = Real.arctan 0 := Real.arctan_zero.symm
    _ ≤ Real.arctan (y / x) :=
      Real.arctan_strictMono.monotone (div_nonneg hy h.le)
  · rw [if_neg (by rw [← h]; exact lt_irrefl 0),
      if_neg (by rw [← h]; exact lt_irrefl 0)]
    rcases lt_or_eq_of_le hy with hy2 | hy2
    · rw [if_pos hy2]
      linarith [Real.pi_pos]
    · rw [if_neg (by rw [← hy2]; exact lt_irrefl 0),
        if_neg (by rw [← hy2]; exact lt_irrefl 0)]

/-- C8: for every pair of coordinates, including identical and antipodal
points, the argument a of the inverse-sine step of the haversine formula
lies in [0, 1], so both square roots are of nonnegative quantities and
haversineDistanceKm is a well-defined nonnegative real number. -/
theorem claim8_haversine_arg_in_unit_interval (lat1 lon1 lat2 lon2 : ℝ) :
    0 ≤ haversineA lat1 lon1 lat2 lon2 ∧
      haversineA lat1 lon1 lat2 lon2 ≤ 1 ∧
      0 ≤ haversineDistanceKm lat1 lon1 lat2 lon2 := by
  have hb1 := sph_inner_le_one (toRad lat1) (toRad lat2)
    (Real.cos (toRad lon2 - toRad lon1)) (Real.neg_one_le_cos _)
    (Real.cos_le_one _)
  have hb2 := neg_one_le_sph_inner (toRad lat1) (toRad lat2)
    (Real.cos (toRad lon2 - toRad lon1)) (Real.neg_one_le_cos _)
    (Real.cos_le_one _)
  have heq := haversineA_eq lat1 lon1 lat2 lon2
  refine ⟨by rw [heq]; linarith, by rw [heq]; linarith, ?_⟩
  unfold haversineDistanceKm
  have hat := atan2_nonneg (Real.sqrt_nonneg (haversineA lat1 lon1 lat2 lon2))
    (Real.sqrt_nonneg (1 - haversineA lat1 lon1 lat2 lon2))
  linarith

/-! ### Assignment transaction lemmas -/

/-- The four conditions under which the transactional re-check of
assignDriverForBooking throws: the booking vanished, the booking is no
longer pending, the vehicle vanished, or the vehicle is full. -/
def recheckFails (s : DB) (bookingId vehicleId : String) : Prop :=
  lookupDoc s.bookings bookingId = none ∨
    (∃ b, lookupDoc s.bookings bookingId = some b ∧ b.status ≠ "pending") ∨
    lookupDoc s.vehicles vehicleId = none ∨
    (∃ v, lookupDoc s.vehicles vehicleId = some v ∧
      7 ≤ (v.currentPassengers.getD []).length)

/-- The outcome is a thrown transaction conflict. -/
def isConflict : AssignOutcome → Prop
  | .errConflict _ => True
  | _ => False

/-- Reading back the updated id returns the updated document. -/
lemma lookupDoc_updateDoc_self (l : List (String × α)) (id : String)
    (f : α → α) :
    lookupDoc (updateDoc l id f) id = (lookupDoc l id).map f := by
  unfold lookupDoc updateDoc
  rw [List.find?_map]
  have hpg : ((fun p : String × α => p.1 == id) ∘ fun p =>
      if p.1 == id then (p.1, f p.2) else p) = fun p => p.1 == id := by
    funext q
    by_cases h : q.1 = id
    · simp [Function.comp, h]
    · simp [Function.comp, h]
  rw [hpg]
  cases hf : List.find? (fun p => p.1 == id) l with
  | none => rfl
  | some q =>
    have hq : (q.1 == id) = true := by simpa using List.find?_some hf
    have hq2 : q.1 = id := by simpa using hq
    simp [hq2]

/-- Inversion of a committed transaction: all four re-checks passed and the
new state is exactly the two buffered updates. -/
lemma txAssign_ok_inv {s : DB} {bid vid : String} {did : Option String}
    {rand : String} {s4 : DB} (h : txAssign s bid vid did rand = .ok s4) :
    ∃ bData vData,
      lookupDoc s.bookings bid = some bData ∧
      bData.status = "pending" ∧
      lookupDoc s.vehicles vid = some vData ∧
      (vData.currentPassengers.getD []).length < 7 ∧
      s4.bookings = updateDoc s.bookings bid (fun b =>
        { b with
          assignedVehicleId := some vid
          assignedDriverId := truthyDriverId did
          status := "assigned"
          verificationCode := some (if slice4 (bData.number.getD "") = ""
            then rand else slice4 (bData.number.getD ""))
          assignedAt := some 1 }) ∧
      s4.vehicles = updateDoc s.vehicles vid (fun v =>
        { v with
          currentPassengers :=
            some (vData.currentPassengers.getD [] ++ [bid]) }) := by
  unfold txAssign at h
  split at h
  · exact Except.noConfusion h
  next bData heqb =>
    split at h
    · exact Except.noConfusion h
    next hbs =>
      split at h
      · exact Except.noConfusion h
      next vData heqv =>
        dsimp only at h
        split at h
        · exact Except.noConfusion h
        next hvp =>
          injection h with h4
          subst h4
          exact ⟨bData, vData, heqb, not_not.mp hbs, heqv,
            Nat.lt_of_not_le hvp, rfl, rfl⟩

/-- When any re-check condition holds at transaction time, the transaction
body throws. -/
lemma txAssign_error_of_recheckFails {s : DB} {bid vid : String}
    {did : Option String} {rand : String} (h : recheckFails s bid vid) :
    ∃ e, txAssign s bid vid did rand = .error e := by
  cases htx : txAssign s bid vid did rand with
  | error e => exact ⟨e, rfl⟩
  | ok s4 =>
    exfalso
    obtain ⟨bData, vData, hb, hbs, hv, hvp, -, -⟩ := txAssign_ok_inv htx
    rcases h with h | ⟨b, hb2, hbs2⟩ | h | ⟨v, hv2, hvp2⟩
    · rw [h] at hb; cases hb
    · rw [hb2] at hb; injection hb with h3; subst h3; exact hbs2 hbs
    · rw [h] at hv; cases hv
    · rw [hv2] at hv; injection hv with h3; subst h3
      exact absurd hvp (not_lt.mpr hvp2)

/-- C1: when phase one has chosen a candidate but any transactional re-check
fails (booking gone or no longer pending, vehicle gone or full at
transaction time), the call surfaces a conflict error and the store state at
transaction time is returned untouched: no field of the booking document and
no field of the vehicle document is written. -/
theorem claim1_tx_recheck_aborts_without_write
    (distFn : ℚ → ℚ → FloatVal → FloatVal → ℚ) (rand : String)
    (s s2 : DB) (bid : String) (booking : Booking) (p : RawPickup)
    (rlat rlng : RawVal) (chosen : Candidate)
    (hb : lookupDoc s.bookings bid = some booking)
    (hst : booking.status = "pending")
    (hp : booking.pickup = some p)
    (hlat : p.lat = some rlat) (hlng : p.lng = some rlng)
    (hnan : ((parseFloat rlat).isNaN || (parseFloat rlng).isNaN) = false)
    (hch : chooseCandidate
      (mkCandidates distFn s.vehicles (parseFloat rlat) (parseFloat rlng)) =
        some chosen)
    (hfail : recheckFails s2 bid chosen.id) :
    isConflict (assignInterleaved distFn rand s s2 bid).1 ∧
      (assignInterleaved distFn rand s s2 bid).2 = s2 := by
  obtain ⟨e, he⟩ :=
    @txAssign_error_of_recheckFails s2 bid chosen.id chosen.driverId rand
      hfail
  have : assignInterleaved distFn rand s s2 bid = (.errConflict e, s2) := by
    unfold assignInterleaved
    rw [hb]
    simp only [hst, ne_eq, not_true_eq_false, if_false, hp, hlat, hlng,
      hnan, Bool.false_eq_true, if_false, hch, he]
  rw [this]
  exact ⟨trivial, rfl⟩

/-- A pending booking at the origin with a valid phone number. -/
def bk0 : Booking :=
  { status := "pending"
    pickup := some { lat := some (.num (.finite 0))
                     lng := some (.num (.finite 0)) }
    number := some "9876543210"
    assignedVehicleId := none
    assignedDriverId := none
    verificationCode := none
    assignedAt := none }

/-- An idle empty vehicle. -/
def vh0 : Vehicle :=
  { status := "idle"
    driverId := some "d1"
    location := some { lat := 1, lng := 1 }
    currentPassengers := some []
    fcmToken := none }

/-- The snapshot state seen by the candidate scan. -/
def dbSnap : DB := { bookings := [("b1", bk0)], vehicles := [("v1", vh0)] }

/-- The same booking, concurrently assigned before the transaction ran. -/
def bkTaken : Booking := { bk0 with status := "assigned" }

/-- The store state at transaction time. -/
def dbTx : DB := { bookings := [("b1", bkTaken)], vehicles := [("v1", vh0)] }

/-- A constant stand-in distance function. -/
def dOne : ℚ → ℚ → FloatVal → FloatVal → ℚ := fun _ _ _ _ => 1

/-- The candidate the scan of dbSnap produces. -/
def cand0 : Candidate :=
  { id := "v1", driverId := some "d1", dist := 1, passengerCount := 0,
    fcmToken := none }

/-- Witness for C1: a booking assigned by a racing call between the scan and
the transaction makes the call end in a conflict with the state unchanged. -/
theorem claim1_witness :
    isConflict (assignInterleaved dOne "1234" dbSnap dbTx "b1").1 ∧
      (assignInterleaved dOne "1234" dbSnap dbTx "b1").2 = dbTx :=
  claim1_tx_recheck_aborts_without_write dOne "1234" dbSnap dbTx "b1"
    bk0 { lat := some (.num (.finite 0)), lng := some (.num (.finite 0)) }
    (.num (.finite 0)) (.num (.finite 0)) cand0
    rfl rfl rfl rfl rfl rfl rfl
    (Or.inr (Or.inl ⟨bkTaken, rfl, by decide⟩))

/-- Inversion of an assignment outcome: an assigned result can only come
from a committed transaction on the transaction-time state. -/
lemma assignInterleaved_assigned_inv {distFn : ℚ → ℚ → FloatVal → FloatVal → ℚ}
    {rand : String} {s s2 : DB} {bid vid : String} {s3 : DB}
    (h : assignInterleaved distFn rand s s2 bid = (.assigned vid, s3)) :
    ∃ chosen : Candidate,
      txAssign s2 bid chosen.id chosen.driverId rand = .ok s3 ∧
        chosen.id = vid := by
  unfold assignInterleaved at h
  split at h
  · exact absurd h (by simp)
  next booking heqb =>
    split at h
    · exact absurd h (by simp)
    next hst =>
      split at h
      · exact absurd h (by simp)
      next p heqp =>
        split at h
        next rlat rlng heqlat heqlng =>
          dsimp only at h
          split at h
          · exact absurd h (by simp)
          next hnan =>
            split at h
            · exact absurd h (by simp)
            next chosen heqch =>
              split at h
              next e heqtx => exact absurd h (by simp)
              next s4 heqtx =>
                injection h with h1 h2
                injection h1 with h1
                subst h2
                exact ⟨chosen, heqtx, h1⟩
        next heqother => exact absurd h (by simp)

/-- The store state returned by a call is either the untouched
transaction-time state or the result of a committed transaction. -/
lemma assignInterleaved_state_cases
    (distFn : ℚ → ℚ → FloatVal → FloatVal → ℚ) (rand : String)
    (s s2 : DB) (bid : String) :
    (assignInterleaved distFn rand s s2 bid).2 = s2 ∨
      ∃ ch : Candidate, txAssign s2 bid ch.id ch.driverId rand =
        .ok (assignInterleaved distFn rand s s2 bid).2 := by
  unfold assignInterleaved
  split
  · exact Or.inl rfl
  next booking heqb =>
    split
    · exact Or.inl rfl
    next hst =>
      split
      · exact Or.inl rfl
      next p heqp =>
        split
        next rlat rlng heqlat heqlng =>
          dsimp only
          split
          · exact Or.inl rfl
          next hnan =>
            split
            · exact Or.inl rfl
            next chosen heqch =>
              split
              next e heqtx => exact Or.inl rfl
              next s4 heqtx => exact Or.inr ⟨chosen, by rw [heqtx]⟩
        next heqother => exact Or.inl rfl

/-- C9: a booking whose status is not pending makes the call a benign no-op
(normal return, no state change), and therefore re-invoking assign on a
booking it just assigned is a no-op: the committed transaction stamped
status "assigned" on that booking. -/
theorem claim9_not_pending_noop_and_idempotent :
    (∀ (distFn : ℚ → ℚ → FloatVal → FloatVal → ℚ) (rand : String)
        (s s2 : DB) (bid : String) (booking : Booking),
        lookupDoc s.bookings bid = some booking →
        booking.status ≠ "pending" →
        assignInterleaved distFn rand s s2 bid = (.noopNotPending, s2)) ∧
      (∀ (distFn : ℚ → ℚ → FloatVal → FloatVal → ℚ) (rand : String)
        (s : DB) (bid vid : String) (s3 : DB),
        assignDriverForBooking distFn rand s bid = (.assigned vid, s3) →
        assignDriverForBooking distFn rand s3 bid = (.noopNotPending, s3)) := by
  have part1 : ∀ (distFn : ℚ → ℚ → FloatVal → FloatVal → ℚ) (rand : String)
      (s s2 : DB) (bid : String) (booking : Booking),
      lookupDoc s.bookings bid = some booking →
      booking.status ≠ "pending" →
      assignInterleaved distFn rand s s2 bid = (.noopNotPending, s2) := by
    intro distFn rand s s2 bid booking hb hst
    unfold assignInterleaved
    rw [hb]
    simp only [ne_eq, hst, not_false_eq_true, if_true]
  refine ⟨part1, ?_⟩
  intro distFn rand s bid vid s3 h
  unfold assignDriverForBooking at h ⊢
  obtain ⟨ch, htx, -⟩ := assignInterleaved_assigned_inv h
  obtain ⟨bData, vData, hb, hbs, hv, hvp, hbooks, hveh⟩ := txAssign_ok_inv htx
  refine part1 distFn rand s3 s3 bid
    { bData with
      assignedVehicleId := some ch.id
      assignedDriverId := truthyDriverId ch.driverId
      status := "assigned"
      verificationCode := some (if slice4 (bData.number.getD "") = ""
        then rand else slice4 (bData.number.getD ""))
      assignedAt := some 1 } ?_ ?_
  · rw [hbooks, lookupDoc_updateDoc_self, hb]
    rfl
  · exact (show ("assigned" : String) ≠ "pending" by decide)

/-- C3: the candidate scan never offers a full vehicle (its passenger count
is always below 7), and a call preserves the capacity invariant: when every
vehicle of the transaction-time state carries at most 7 passengers, so does
every vehicle of the state after the call (the transaction re-checks
strictly-below-7 before its single append). -/
theorem claim3_capacity_invariant :
    (∀ (distFn : ℚ → ℚ → FloatVal → FloatVal → ℚ)
        (vehicles : List (String × Vehicle)) (plat plng : FloatVal)
        (c : Candidate), c ∈ mkCandidates distFn vehicles plat plng →
        c.passengerCount < 7) ∧
      (∀ (distFn : ℚ → ℚ → FloatVal → FloatVal → ℚ) (rand : String)
        (s s2 : DB) (bid : String),
        (∀ p ∈ s2.vehicles, (p.2.currentPassengers.getD []).length ≤ 7) →
        ∀ p ∈ (assignInterleaved distFn rand s s2 bid).2.vehicles,
          (p.2.currentPassengers.getD []).length ≤ 7) := by
  constructor
  · intro distFn vehicles plat plng c hc
    unfold mkCandidates at hc
    rw [List.mem_filterMap] at hc
    obtain ⟨p, hp, hf⟩ := hc
    dsimp only at hf
    split at hf
    next h1 =>
      split at hf
      next h2 => exact Option.noConfusion hf
      next h2 =>
        split at hf
        · exact Option.noConfusion hf
        next loc heq =>
          injection hf with hf
          subst hf
          exact Nat.lt_of_not_le h2
    next h1 => exact Option.noConfusion hf
  · intro distFn rand s s2 bid hinv p hp
    rcases assignInterleaved_state_cases distFn rand s s2 bid with
      hcase | ⟨ch, htx⟩
    · rw [hcase] at hp
      exact hinv p hp
    · obtain ⟨bData, vData, hb, hbs, hv, hvp, hbooks, hveh⟩ :=
        txAssign_ok_inv htx
      rw [hveh] at hp
      unfold updateDoc at hp
      rw [List.mem_map] at hp
      obtain ⟨q, hq, hpq⟩ := hp
      by_cases hid : (q.1 == ch.id) = true
      · rw [if_pos hid] at hpq
        rw [← hpq]
        simp only [Option.getD_some, List.length_append, List.length_singleton]
        omega
      · rw [if_neg hid] at hpq
        rw [← hpq]
        exact hinv q hq

/-- The booking document after the successful assignment of dbSnap. -/
def bkDone : Booking :=
  { status := "assigned"
    pickup := bk0.pickup
    number := some "9876543210"
    assignedVehicleId := some "v1"
    assignedDriverId := some "d1"
    verificationCode := some "3210"
    assignedAt := some 1 }

/-- The vehicle document after the successful assignment of dbSnap. -/
def vhDone : Vehicle := { vh0 with currentPassengers := some ["b1"] }

/-- The store after the successful assignment of dbSnap. -/
def dbDone : DB :=
  { bookings := [("b1", bkDone)], vehicles := [("v1", vhDone)] }

/-- Witness for C9: a non-pending booking is a no-op, and re-invoking
assign right after a successful assignment is a no-op. -/
theorem claim9_witness :
    assignInterleaved dOne "1234" dbTx dbTx "b1" = (.noopNotPending, dbTx) ∧
      assignDriverForBooking dOne "1234" dbDone "b1" =
        (.noopNotPending, dbDone) :=
  ⟨claim9_not_pending_noop_and_idempotent.1 dOne "1234" dbTx dbTx "b1"
      bkTaken rfl (by decide),
    claim9_not_pending_noop_and_idempotent.2 dOne "1234" dbSnap "b1" "v1"
      dbDone rfl⟩

/-- Witness for C3: the scanned candidate of dbSnap is not full, and the
vehicle after the concrete successful assignment still satisfies the
capacity bound. -/
theorem claim3_witness :
    cand0.passengerCount < 7 ∧
      ((("v1", vhDone) : String × Vehicle).2.currentPassengers.getD
        []).length ≤ 7 :=
  ⟨claim3_capacity_invariant.1 dOne dbSnap.vehicles (.finite 0) (.finite 0)
      cand0 (by decide),
    claim3_capacity_invariant.2 dOne "1234" dbSnap dbSnap "b1" (by decide)
      ("v1", vhDone) (by decide)⟩

/-- A pending booking whose pickup latitude is the string "Infinity". -/
def bkInf : Booking :=
  { status := "pending"
    pickup := some { lat := some .strInf, lng := some (.num (.finite 0)) }
    number := none
    assignedVehicleId := none
    assignedDriverId := none
    verificationCode := none
    assignedAt := none }

/-- A store holding only bkInf and no vehicles. -/
def dbInf : DB := { bookings := [("b1", bkInf)], vehicles := [] }

/-- C7 counterexample: a present pickup latitude that parses as Infinity is
not a finite number, yet assign does not fail with the invalid-booking
error; it proceeds past validation into the candidate scan (ending here in
the benign no-vehicles no-op).  The validation only rejects NaN. -/
theorem claim7_counterexample :
    (parseFloat RawVal.strInf).isFinite = false ∧
      bkInf.pickup ≠ none ∧
      assignDriverForBooking dOne "1234" dbInf "b1" =
        (.noopNoVehicles, dbInf) :=
  ⟨rfl, by decide, rfl⟩

/-- C7 (amended): assign fails with the invalid-coordinates error, with the
store untouched, exactly when the present pickup coordinates include one
that parses as NaN; values parsing as infinities pass the validation. -/
theorem claim7_nan_rejected_before_mutation :
    (∀ (distFn : ℚ → ℚ → FloatVal → FloatVal → ℚ) (rand : String)
        (s s2 : DB) (bid : String) (booking : Booking) (p : RawPickup)
        (rlat rlng : RawVal),
        lookupDoc s.bookings bid = some booking →
        booking.status = "pending" →
        booking.pickup = some p →
        p.lat = some rlat → p.lng = some rlng →
        ((parseFloat rlat).isNaN || (parseFloat rlng).isNaN) = true →
        assignInterleaved distFn rand s s2 bid = (.errInvalidPickup, s2)) ∧
      (∀ (distFn : ℚ → ℚ → FloatVal → FloatVal → ℚ) (rand : String)
        (s s2 : DB) (bid : String),
        (assignInterleaved distFn rand s s2 bid).1 = .errInvalidPickup →
        ∃ booking p rlat rlng,
          lookupDoc s.bookings bid = some booking ∧
          booking.pickup = some p ∧ p.lat = some rlat ∧ p.lng = some rlng ∧
          ((parseFloat rlat).isNaN || (parseFloat rlng).isNaN) = true) := by
  constructor
  · intro distFn rand s s2 bid booking p rlat rlng hb hst hp hlat hlng hnan
    unfold assignInterleaved
    rw [hb]
    simp only [hst, ne_eq, not_true_eq_false, if_false, hp, hlat, hlng,
      hnan, if_true]
  · intro distFn rand s s2 bid h
    unfold assignInterleaved at h
    split at h
    · exact absurd h (by simp)
    next booking heqb =>
      split at h
      · exact absurd h (by simp)
      next hst =>
        split at h
        · exact absurd h (by simp)
        next p heqp =>
          split at h
          next rlat rlng heqlat heqlng =>
            dsimp only at h
            split at h
            next hnan =>
              exact ⟨booking, p, rlat, rlng, heqb, heqp, heqlat, heqlng,
                hnan⟩
            next hnan =>
              split at h
              · exact absurd h (by simp)
              next chosen heqch =>
                split at h
                next e heqtx => exact absurd h (by simp)
                next s4 heqtx => exact absurd h (by simp)
          next heqother => exact absurd h (by simp)

/-- A pending booking whose pickup latitude is a non-numeric string. -/
def bkNaN : Booking :=
  { bkInf with
    pickup := some { lat := some .strBad, lng := some (.num (.finite 0)) } }

/-- A store holding only bkNaN. -/
def dbNaN : DB := { bookings := [("b1", bkNaN)], vehicles := [] }

/-- Witness for the amended C7: a NaN-parsing latitude is rejected with the
state unchanged. -/
theorem claim7_witness :
    assignInterleaved dOne "9999" dbNaN dbNaN "b1" =
      (.errInvalidPickup, dbNaN) :=
  claim7_nan_rejected_before_mutation.1 dOne "9999" dbNaN dbNaN "b1" bkNaN
    { lat := some .strBad, lng := some (.num (.finite 0)) } .strBad
    (.num (.finite 0)) rfl rfl rfl rfl rfl rfl

/-- c strictly beats d under the candidate comparator. -/
def candStrict (c d : Candidate) : Prop := candLe c d ∧ ¬ candLe d c

instance : DecidableRel candStrict := fun a b => by
  unfold candStrict; infer_instance

/-- When one element strictly dominates every other element of the list
under the comparator, it ends up at the head of the insertion sort. -/
lemma insertionSort_head_dominant {α : Type} {r : α → α → Prop}
    [DecidableRel r] {c : α} :
    ∀ (l : List α), c ∈ l → (∀ d ∈ l, d = c ∨ (r c d ∧ ¬ r d c)) →
      (l.insertionSort r).head? = some c
  | [], hc, _ => absurd hc (List.not_mem_nil c)
  | x :: xs, hc, hdom => by
    by_cases hx : c ∈ xs
    · have ih := insertionSort_head_dominant xs hx
        (fun d hd => hdom d (List.mem_cons_of_mem _ hd))
      obtain ⟨rest, hrest⟩ : ∃ rest, xs.insertionSort r = c :: rest := by
        cases hxs : xs.insertionSort r with
        | nil => rw [hxs] at ih; exact absurd ih (by simp)
        | cons a t =>
          rw [hxs] at ih
          simp only [List.head?_cons, Option.some.injEq] at ih
          exact ⟨t, by rw [ih]⟩
      show (List.orderedInsert r x (xs.insertionSort r)).head? = some c
      rw [hrest]
      rcases hdom x (List.mem_cons_self x xs) with hxc | ⟨h1, h2⟩
      · rw [hxc]
        show (List.orderedInsert r c (c :: rest)).head? = some c
        simp only [List.orderedInsert]
        split
        · rfl
        · rfl
      · show (List.orderedInsert r x (c :: rest)).head? = some c
        simp only [List.orderedInsert]
        rw [if_neg h2]
        rfl
    · have hcx : c = x := by
        rcases List.mem_cons.mp hc with h | h
        · exact h
        · exact absurd h hx
      subst hcx
      show (List.orderedInsert r c (xs.insertionSort r)).head? = some c
      cases hxs : xs.insertionSort r with
      | nil => rfl
      | cons a t =>
        have ha : a ∈ xs := (List.mem_insertionSort r).mp
          (by rw [hxs]; exact List.mem_cons_self a t)
        rcases hdom a (List.mem_cons_of_mem _ ha) with h | ⟨h1, -⟩
        · exact absurd (h ▸ ha) hx
        · show (List.orderedInsert r c (a :: t)).head? = some c
          simp only [List.orderedInsert]
          rw [if_pos h1]
          rfl

/-- C2: the chosen candidate is the one ranked first by the comparator
(distance ascending, near-ties of less than 0.001 km broken by fewer
carried passengers): any candidate that strictly dominates all others is
chosen, and for two candidates at 10.0005 km and 10.0008 km the one with
fewer carried passengers is chosen in either input order. -/
theorem claim2_choose_ranked_first :
    (∀ (l : List Candidate) (c : Candidate), c ∈ l →
        (∀ d ∈ l, d = c ∨ candStrict c d) →
        chooseCandidate l = some c) ∧
      (∀ a b : Candidate, a.dist = 100005/10000 → b.dist = 100008/10000 →
        a.passengerCount < b.passengerCount →
        chooseCandidate [a, b] = some a ∧ chooseCandidate [b, a] = some a) := by
  constructor
  · intro l c hc hdom
    exact insertionSort_head_dominant l hc hdom
  · intro a b hda hdb hpc
    have htie : |a.dist - b.dist| < 1/1000 := by
      rw [hda, hdb, abs_lt]
      constructor <;> norm_num
    have h1 : candLe a b := by
      unfold candLe; rw [if_pos htie]; exact le_of_lt hpc
    have h2 : ¬ candLe b a := by
      unfold candLe
      rw [if_pos (by rwa [abs_sub_comm] at htie)]
      omega
    constructor
    · show (List.insertionSort candLe [a, b]).head? = some a
      simp only [List.insertionSort, List.orderedInsert]
      rw [if_pos h1]
      rfl
    · show (List.insertionSort candLe [b, a]).head? = some a
      simp only [List.insertionSort, List.orderedInsert]
      rw [if_neg h2]
      rfl

/-- The near candidate of the C2 witness (10.0005 km, one passenger). -/
def candA : Candidate :=
  { id := "a", driverId := none, dist := 100005/10000, passengerCount := 1,
    fcmToken := none }

/-- The near-tied candidate of the C2 witness (10.0008 km, two passengers). -/
def candB : Candidate :=
  { id := "b", driverId := none, dist := 100008/10000, passengerCount := 2,
    fcmToken := none }

/-- A strictly closer candidate for the dominance part of the C2 witness. -/
def candFar : Candidate :=
  { id := "f", driverId := none, dist := 5, passengerCount := 0,
    fcmToken := none }

/-- Witness for C2: the dominating candidate wins, and the near-tie is
broken by passenger count in both input orders. -/
theorem claim2_witness :
    chooseCandidate [candFar, candA] = some candFar ∧
      chooseCandidate [candA, candB] = some candA ∧
      chooseCandidate [candB, candA] = some candA := by
  have hcond1 : ¬ (|candFar.dist - candA.dist| < 1/1000) := by
    intro hlt
    rw [abs_lt] at hlt
    have h1 := hlt.1
    norm_num [candFar, candA] at h1
  have hcond2 : ¬ (|candA.dist - candFar.dist| < 1/1000) := by
    intro hlt
    rw [abs_lt] at hlt
    have h1 := hlt.2
    norm_num [candA, candFar] at h1
  have hdom : ∀ d ∈ [candFar, candA], d = candFar ∨ candStrict candFar d := by
    intro d hd
    rcases List.mem_cons.mp hd with h | h
    · exact Or.inl h
    · have h2 : d = candA := by simpa using h
      subst h2
      refine Or.inr ⟨?_, ?_⟩
      · unfold candLe
        rw [if_neg hcond1]
        norm_num [candFar, candA]
      · unfold candLe
        rw [if_neg hcond2]
        intro hle
        norm_num [candA, candFar] at hle
  exact ⟨claim2_choose_ranked_first.1 [candFar, candA] candFar (by simp) hdom,
    (claim2_choose_ranked_first.2 candA candB rfl rfl (by decide)).1,
    (claim2_choose_ranked_first.2 candA candB rfl rfl (by decide)).2⟩

/-! ### Hotspot clustering lemmas -/

/-- Incrementing the first close hotspot keeps every count at least 1. -/
lemma bumpFirstClose_count_ge {distFn : Coord → Coord → ℚ} {p : Coord} :
    ∀ {hs hs2 : List Hotspot}, bumpFirstClose distFn p hs = some hs2 →
      (∀ h ∈ hs, 1 ≤ h.count) → ∀ h ∈ hs2, 1 ≤ h.count
  | [], _, hb, _ => by cases hb
  | a :: t, hs2, hb, hin => by
    unfold bumpFirstClose at hb
    split at hb
    · injection hb with hb
      subst hb
      intro h hmem
      rcases List.mem_cons.mp hmem with hh | hmem2
      · subst hh
        exact Nat.succ_le_succ (Nat.zero_le _)
      · exact hin h (List.mem_cons_of_mem _ hmem2)
    · cases hbt : bumpFirstClose distFn p t with
      | none => rw [hbt] at hb; cases hb
      | some t2 =>
        rw [hbt] at hb
        injection hb with hb
        subst hb
        intro h hmem
        rcases List.mem_cons.mp hmem with hh | hmem2
        · rw [hh]
          exact hin a (List.mem_cons_self a t)
        · exact bumpFirstClose_count_ge hbt
            (fun x hx => hin x (List.mem_cons_of_mem _ hx)) h hmem2

/-- One clustering step keeps every count at least 1. -/
lemma clusterStep_count_ge {distFn : Coord → Coord → ℚ}
    {hs : List Hotspot} {b : RBooking}
    (hin : ∀ h ∈ hs, 1 ≤ h.count) :
    ∀ h ∈ clusterStep distFn hs b, 1 ≤ h.count := by
  intro h hm
  unfold clusterStep at hm
  split at hm
  · exact hin h hm
  next p hu =>
    split at hm
    next hs2 hb => exact bumpFirstClose_count_ge hb hin h hm
    next hb =>
      rcases List.mem_append.mp hm with h1 | h1
      · exact hin h h1
      · have hh : h = { location := p, count := 1 } := by simpa using h1
        subst hh
        exact le_refl 1

/-- The whole clustering fold keeps every count at least 1. -/
lemma clusterFold_count_ge (distFn : Coord → Coord → ℚ) :
    ∀ (bs : List RBooking) (acc : List Hotspot),
      (∀ h ∈ acc, 1 ≤ h.count) →
      ∀ h ∈ bs.foldl (clusterStep distFn) acc, 1 ≤ h.count
  | [], acc, hacc => hacc
  | b :: rest, acc, hacc => by
    simp only [List.foldl_cons]
    exact clusterFold_count_ge distFn rest (clusterStep distFn acc b)
      (clusterStep_count_ge hacc)

/-- Every hotspot reported by identifyHotspots has a count of at least 1. -/
lemma identifyHotspots_count_ge {distFn : Coord → Coord → ℚ}
    {bs : List RBooking} : ∀ h ∈ identifyHotspots distFn bs, 1 ≤ h.count := by
  intro h hm
  unfold identifyHotspots at hm
  rw [List.mem_insertionSort] at hm
  exact clusterFold_count_ge distFn bs [] (by intro x hx; cases hx) h hm

/-- Incrementing the first close hotspot adds exactly 1 to the total. -/
lemma bumpFirstClose_sum {distFn : Coord → Coord → ℚ} {p : Coord} :
    ∀ {hs hs2 : List Hotspot}, bumpFirstClose distFn p hs = some hs2 →
      (hs2.map Hotspot.count).sum = (hs.map Hotspot.count).sum + 1
  | [], _, hb => by cases hb
  | a :: t, hs2, hb => by
    unfold bumpFirstClose at hb
    split at hb
    · injection hb with hb
      subst hb
      simp only [List.map_cons, List.sum_cons]
      omega
    · cases hbt : bumpFirstClose distFn p t with
      | none => rw [hbt] at hb; cases hb
      | some t2 =>
        rw [hbt] at hb
        injection hb with hb
        subst hb
        simp only [List.map_cons, List.sum_cons]
        rw [bumpFirstClose_sum hbt]
        omega

/-- One clustering step adds 1 to the total count exactly when the booking
has a usable pickup. -/
lemma clusterStep_sum (distFn : Coord → Coord → ℚ) (hs : List Hotspot)
    (b : RBooking) :
    ((clusterStep distFn hs b).map Hotspot.count).sum =
      (hs.map Hotspot.count).sum +
        (if (usableCoord b.pickup).isSome then 1 else 0) := by
  unfold clusterStep
  cases hu : usableCoord b.pickup with
  | none => simp [hu]
  | some p =>
    cases hb : bumpFirstClose distFn p hs with
    | none => simp [hu, hb]
    | some hs2 => simp [hu, hb, bumpFirstClose_sum hb]

/-- The clustering fold adds 1 to the total count per usable booking. -/
lemma clusterFold_sum (distFn : Coord → Coord → ℚ) :
    ∀ (bs : List RBooking) (acc : List Hotspot),
      ((bs.foldl (clusterStep distFn) acc).map Hotspot.count).sum =
        (acc.map Hotspot.count).sum +
          bs.countP (fun b => (usableCoord b.pickup).isSome)
  | [], acc => by simp
  | b :: rest, acc => by
    simp only [List.foldl_cons, List.countP_cons]
    rw [clusterFold_sum distFn rest, clusterStep_sum]
    cases hu : (usableCoord b.pickup).isSome with
    | true => simp [hu]; omega
    | false => simp [hu]

/-- A booking with a missing or falsy pickup leaves the hotspot list
untouched. -/
lemma clusterStep_skip {distFn : Coord → Coord → ℚ} {hs : List Hotspot}
    {b : RBooking} (h : usableCoord b.pickup = none) :
    clusterStep distFn hs b = hs := by
  unfold clusterStep
  rw [h]

/-- When no hotspot is within 0.5 km the scan finds nothing. -/
lemma bumpFirstClose_eq_none {distFn : Coord → Coord → ℚ} {p : Coord} :
    ∀ {hs : List Hotspot}, (∀ h ∈ hs, ¬ distFn h.location p < 1/2) →
      bumpFirstClose distFn p hs = none
  | [], _ => rfl
  | a :: t, hfar => by
    unfold bumpFirstClose
    rw [if_neg (hfar a (List.mem_cons_self a t))]
    rw [bumpFirstClose_eq_none (fun h hm => hfar h (List.mem_cons_of_mem _ hm))]
    rfl

/-- The scan increments exactly the first hotspot within 0.5 km and keeps
its representative location and all other hotspots unchanged. -/
lemma bumpFirstClose_first {distFn : Coord → Coord → ℚ} {p : Coord} :
    ∀ (hs1 : List Hotspot) (h0 : Hotspot) (hs2 : List Hotspot),
      (∀ h ∈ hs1, ¬ distFn h.location p < 1/2) →
      distFn h0.location p < 1/2 →
      bumpFirstClose distFn p (hs1 ++ h0 :: hs2) =
        some (hs1 ++ { h0 with count := h0.count + 1 } :: hs2)
  | [], h0, hs2, _, hclose => by
    simp only [List.nil_append]
    unfold bumpFirstClose
    rw [if_pos hclose]
  | a :: t, h0, hs2, hfar, hclose => by
    simp only [List.cons_append]
    unfold bumpFirstClose
    rw [if_neg (hfar a (List.mem_cons_self a t))]
    rw [bumpFirstClose_first t h0 hs2
      (fun h hm => hfar h (List.mem_cons_of_mem _ hm)) hclose]
    rfl

/-- C4 (amended): identifyHotspots processes pickups in order and skips a
booking exactly when its pickup is missing or one of its coordinates is
falsy (equal to 0); a skipped booking leaves the result unchanged; a usable
point within 0.5 km of the first close hotspot increments that count and
keeps the representative coordinate; otherwise a fresh hotspot with count 1
is appended; every reported count is at least 1, the counts total the
number of usable bookings, and the output is sorted by count descending. -/
theorem claim4_cluster_properties (distFn : Coord → Coord → ℚ)
    (bs : List RBooking) :
    List.Sorted hotGe (identifyHotspots distFn bs) ∧
      (∀ h ∈ identifyHotspots distFn bs, 1 ≤ h.count) ∧
      ((identifyHotspots distFn bs).map Hotspot.count).sum =
        (bs.filter (fun b => (usableCoord b.pickup).isSome)).length ∧
      (∀ b : RBooking, usableCoord b.pickup = none →
        identifyHotspots distFn (bs ++ [b]) = identifyHotspots distFn bs) ∧
      (∀ (hs : List Hotspot) (b : RBooking) (p : Coord),
        usableCoord b.pickup = some p →
        (∀ h ∈ hs, ¬ distFn h.location p < 1/2) →
        clusterStep distFn hs b = hs ++ [{ location := p, count := 1 }]) ∧
      (∀ (hs1 hs2 : List Hotspot) (h0 : Hotspot) (b : RBooking) (p : Coord),
        usableCoord b.pickup = some p →
        (∀ h ∈ hs1, ¬ distFn h.location p < 1/2) →
        distFn h0.location p < 1/2 →
        clusterStep distFn (hs1 ++ h0 :: hs2) b =
          hs1 ++ { h0 with count := h0.count + 1 } :: hs2) := by
  refine ⟨List.sorted_insertionSort hotGe _, identifyHotspots_count_ge,
    ?_, ?_, ?_, ?_⟩
  · have hperm : List.Perm (identifyHotspots distFn bs)
        (bs.foldl (clusterStep distFn) []) :=
      List.perm_insertionSort hotGe _
    rw [(hperm.map Hotspot.count).sum_eq, clusterFold_sum]
    simp [List.countP_eq_length_filter]
  · intro b hskip
    unfold identifyHotspots
    rw [List.foldl_append]
    simp only [List.foldl_cons, List.foldl_nil]
    rw [clusterStep_skip hskip]
  · intro hs b p hu hfar
    unfold clusterStep
    rw [hu]
    dsimp only
    rw [bumpFirstClose_eq_none hfar]
  · intro hs1 hs2 h0 b p hu hfar hclose
    unfold clusterStep
    rw [hu]
    dsimp only
    rw [bumpFirstClose_first hs1 h0 hs2 hfar hclose]

/-- A distance function that treats all points as coincident. -/
def dZero : Coord → Coord → ℚ := fun _ _ => 0

/-- A booking with a present pickup whose latitude is 0. -/
def bkZero : RBooking := { pickup := some { lat := 0, lng := 30 } }

/-- C4 counterexample: a booking whose pickup is present but has latitude 0
is skipped (JS falsiness), so clustering one such booking yields no hotspot
even though the claim says only missing pickups are skipped and this point
should have formed a hotspot with count 1. -/
theorem claim4_counterexample :
    bkZero.pickup ≠ none ∧ identifyHotspots dZero [bkZero] = [] :=
  ⟨fun h => Option.noConfusion h, rfl⟩

/-- Witness for C4: appending the skipped zero-latitude booking leaves the
hotspot list of a booking sequence unchanged. -/
theorem claim4_witness :
    identifyHotspots dZero ([bkZero] ++ [bkZero]) =
      identifyHotspots dZero [bkZero] :=
  (claim4_cluster_properties dZero [bkZero]).2.2.2.1 bkZero rfl

/-! ### Suggestion generation lemmas -/

/-- A produced suggestion comes from some hotspot of the scanned list, at
distance above 0.5 km. -/
lemma findSuggestion_spec {distFn : Coord → Coord → ℚ}
    {idle : List RVehicle} {vehicle : RVehicle} {loc : Coord} :
    ∀ {hs : List Hotspot} {sug : Suggestion},
      findSuggestion distFn idle vehicle loc hs = some sug →
      ∃ h ∈ hs, 1/2 < distFn loc h.location ∧
        sug = mkSuggestion vehicle loc h (distFn loc h.location)
  | [], _, h => by cases h
  | a :: t, sug, h => by
    unfold findSuggestion at h
    split at h
    · obtain ⟨h2, hmem, hd, hsug⟩ := findSuggestion_spec h
      exact ⟨h2, List.mem_cons_of_mem _ hmem, hd, hsug⟩
    · dsimp only at h
      split at h
      next hd =>
        injection h with h
        exact ⟨a, List.mem_cons_self a t, hd, h.symm⟩
      next hd =>
        obtain ⟨h2, hmem, hd2, hsug⟩ := findSuggestion_spec h
        exact ⟨h2, List.mem_cons_of_mem _ hmem, hd2, hsug⟩

/-- A per-vehicle suggestion comes from the usable vehicle location and a
scanned hotspot. -/
lemma vehicleSuggestion_spec {distFn : Coord → Coord → ℚ}
    {idle : List RVehicle} {hotspots : List Hotspot} {vehicle : RVehicle}
    {sug : Suggestion}
    (h : vehicleSuggestion distFn idle hotspots vehicle = some sug) :
    ∃ loc, usableCoord vehicle.location = some loc ∧
      ∃ hot ∈ hotspots, 1/2 < distFn loc hot.location ∧
        sug = mkSuggestion vehicle loc hot (distFn loc hot.location) := by
  unfold vehicleSuggestion at h
  split at h
  · exact Option.noConfusion h
  next loc hloc =>
    obtain ⟨hot, hmem, hd, hsug⟩ := findSuggestion_spec h
    exact ⟨loc, hloc, hot, hmem, hd, hsug⟩

/-- Membership in the suggestion-accumulating fold. -/
lemma mem_suggestionFold {distFn : Coord → Coord → ℚ}
    {idle : List RVehicle} {hotspots : List Hotspot} :
    ∀ (vs : List RVehicle) (acc : List Suggestion) (x : Suggestion),
      x ∈ vs.foldl (fun acc vehicle =>
        match vehicleSuggestion distFn idle hotspots vehicle with
        | none => acc
        | some sug => acc ++ [sug]) acc →
      x ∈ acc ∨ ∃ v ∈ vs, vehicleSuggestion distFn idle hotspots v = some x
  | [], acc, x, h => Or.inl h
  | v :: rest, acc, x, h => by
    simp only [List.foldl_cons] at h
    rcases mem_suggestionFold rest _ x h with hacc | ⟨v2, hv2, hs2⟩
    · cases hvs : vehicleSuggestion distFn idle hotspots v with
      | none => rw [hvs] at hacc; exact Or.inl hacc
      | some sug =>
        rw [hvs] at hacc
        rcases List.mem_append.mp hacc with h1 | h1
        · exact Or.inl h1
        · have hx : x = sug := by simpa using h1
          exact Or.inr ⟨v, List.mem_cons_self v rest, by rw [hvs, hx]⟩
    · exact Or.inr ⟨v2, List.mem_cons_of_mem _ hv2, hs2⟩

/-- Every reported suggestion is the record built for some idle vehicle
with a usable location and some hotspot at distance above 0.5 km. -/
lemma mem_generateRebalanceSuggestions {distFn : Coord → Coord → ℚ}
    {vehicles : List RVehicle} {recentBookings : List RBooking}
    {s : Suggestion}
    (hm : s ∈ generateRebalanceSuggestions distFn vehicles recentBookings) :
    ∃ v ∈ getIdleVehicles vehicles, ∃ loc,
      usableCoord v.location = some loc ∧
      ∃ hot ∈ identifyHotspots distFn recentBookings,
        1/2 < distFn loc hot.location ∧
        s = mkSuggestion v loc hot (distFn loc hot.location) := by
  unfold generateRebalanceSuggestions at hm
  split at hm
  · cases hm
  · rw [List.mem_insertionSort] at hm
    rcases mem_suggestionFold _ _ _ hm with hacc | ⟨v, hv, hs⟩
    · cases hacc
    · obtain ⟨loc, hloc, hot, hmem, hd, hsug⟩ := vehicleSuggestion_spec hs
      exact ⟨v, hv, loc, hloc, hot, hmem, hd, hsug⟩

/-- The priority written by mkSuggestion is an integer between 0 and 10
whenever the hotspot count is at least 1. -/
lemma mkSuggestion_priority_bounds (vehicle : RVehicle) (loc : Coord)
    (h : Hotspot) (d : ℚ) :
    0 ≤ (mkSuggestion vehicle loc h d).priority ∧
      (mkSuggestion vehicle loc h d).priority ≤ 10 := by
  constructor
  · refine le_min (by norm_num) ?_
    unfold jsRound
    rw [Int.le_floor]
    have hden : (1:ℚ) ≤ max 1 d := le_max_left 1 d
    have hnum : (0:ℚ) ≤ (h.count * 5 : ℚ) := by positivity
    have hq : (0:ℚ) ≤ (h.count * 5 : ℚ) / max 1 d :=
      div_nonneg hnum (by linarith)
    push_cast
    linarith
  · exact min_le_left _ _

/-- C6: every emitted suggestion has priority
min(10, round(count * 5 / max(1, distance))) for the count of the hotspot
it targets (which is at least 1), and that priority is an integer between 0
and 10. -/
theorem claim6_priority_formula (distFn : Coord → Coord → ℚ)
    (vehicles : List RVehicle) (recentBookings : List RBooking)
    (s : Suggestion)
    (hm : s ∈ generateRebalanceSuggestions distFn vehicles recentBookings) :
    (0 ≤ s.priority ∧ s.priority ≤ 10) ∧
      ∃ n : ℕ, 1 ≤ n ∧
        s.priority = min 10 (jsRound ((n * 5 : ℚ) / max 1 s.distance)) := by
  obtain ⟨v, hv, loc, hloc, hot, hmem, hd, hsug⟩ :=
    mem_generateRebalanceSuggestions hm
  subst hsug
  exact ⟨mkSuggestion_priority_bounds v loc hot _,
    hot.count, identifyHotspots_count_ge hot hmem, rfl⟩

/-- C10: every rebalance suggestion targets a vehicle of the idle list, and
every vehicle of that list has an absent or empty carried-passenger list,
in particular strictly below the assignment capacity of 7. -/
theorem claim10_rebalance_only_empty_vehicles (distFn : Coord → Coord → ℚ)
    (vehicles : List RVehicle) (recentBookings : List RBooking)
    (s : Suggestion)
    (hm : s ∈ generateRebalanceSuggestions distFn vehicles recentBookings) :
    s.vehicleId ∈ (getIdleVehicles vehicles).map RVehicle.id ∧
      ∀ v ∈ getIdleVehicles vehicles,
        (v.currentPassengers = none ∨ v.currentPassengers = some []) ∧
          (v.currentPassengers.getD []).length < 7 := by
  constructor
  · obtain ⟨v, hv, loc, hloc, hot, hmem, hd, hsug⟩ :=
      mem_generateRebalanceSuggestions hm
    subst hsug
    exact List.mem_map.mpr ⟨v, hv, rfl⟩
  · intro v hv
    unfold getIdleVehicles at hv
    rw [List.mem_filter] at hv
    obtain ⟨-, hcond⟩ := hv
    rw [Bool.and_eq_true] at hcond
    obtain ⟨-, hor⟩ := hcond
    rw [Bool.or_eq_true] at hor
    have hcp : v.currentPassengers = none ∨ v.currentPassengers = some [] := by
      rcases hor with h1 | h1
      · exact Or.inl (eq_of_beq h1)
      · exact Or.inr (eq_of_beq h1)
    refine ⟨hcp, ?_⟩
    rcases hcp with h1 | h1 <;> rw [h1] <;> simp

/-! ### Auto-apply lemmas -/

/-- A per-vehicle suggestion carries the id of that vehicle. -/
lemma vehicleSuggestion_id {distFn : Coord → Coord → ℚ}
    {idle : List RVehicle} {hotspots : List Hotspot} {vehicle : RVehicle}
    {sug : Suggestion}
    (h : vehicleSuggestion distFn idle hotspots vehicle = some sug) :
    sug.vehicleId = vehicle.id := by
  obtain ⟨loc, -, hot, -, -, hsug⟩ := vehicleSuggestion_spec h
  rw [hsug]
  rfl

/-- The vehicle ids of the accumulated suggestions extend those of the
accumulator by a sublist of the scanned vehicle ids (at most one suggestion
per vehicle, bearing its id). -/
lemma suggestionFold_ids {distFn : Coord → Coord → ℚ}
    {idle : List RVehicle} {hotspots : List Hotspot} :
    ∀ (vs : List RVehicle) (acc : List Suggestion),
      ∃ L, (vs.foldl (fun acc vehicle =>
          match vehicleSuggestion distFn idle hotspots vehicle with
          | none => acc
          | some sug => acc ++ [sug]) acc).map Suggestion.vehicleId =
        acc.map Suggestion.vehicleId ++ L ∧
        L.Sublist (vs.map RVehicle.id)
  | [], acc => ⟨[], by simp, by simp⟩
  | v :: rest, acc => by
    simp only [List.foldl_cons]
    cases hvs : vehicleSuggestion distFn idle hotspots v with
    | none =>
      obtain ⟨L, hL, hsub⟩ := suggestionFold_ids rest acc
      exact ⟨L, hL, hsub.trans (List.sublist_cons_self _ _)⟩
    | some sug =>
      obtain ⟨L, hL, hsub⟩ := suggestionFold_ids rest (acc ++ [sug])
      refine ⟨sug.vehicleId :: L, ?_, ?_⟩
      · rw [hL]
        simp
      · simp only [List.map_cons]
        rw [vehicleSuggestion_id hvs]
        exact hsub.cons₂ _

/-- With unique vehicle document ids, the reported suggestions carry
pairwise distinct vehicle ids. -/
lemma generate_ids_nodup {distFn : Coord → Coord → ℚ}
    {vehicles : List RVehicle} {recentBookings : List RBooking}
    (h : (vehicles.map RVehicle.id).Nodup) :
    ((generateRebalanceSuggestions distFn vehicles recentBookings).map
      Suggestion.vehicleId).Nodup := by
  unfold generateRebalanceSuggestions
  split
  · simp
  · have hperm := (List.perm_insertionSort sugGe
      ((getIdleVehicles vehicles).foldl (fun acc vehicle =>
        match vehicleSuggestion distFn (getIdleVehicles vehicles)
            (identifyHotspots distFn recentBookings) vehicle with
        | none => acc
        | some sug => acc ++ [sug]) [])).map Suggestion.vehicleId
    rw [List.Perm.nodup_iff hperm]
    obtain ⟨L, hL, hsub⟩ := suggestionFold_ids (getIdleVehicles vehicles)
      ([] : List Suggestion)
    rw [hL]
    simp only [List.map_nil, List.nil_append]
    have hidle : ((getIdleVehicles vehicles).map RVehicle.id).Nodup := by
      unfold getIdleVehicles
      exact ((List.filter_sublist _).map RVehicle.id).nodup h
    exact hsub.nodup hidle

/-- The sort at the end of generateRebalanceSuggestions leaves the output
sorted by priority descending. -/
lemma generate_sorted (distFn : Coord → Coord → ℚ)
    (vehicles : List RVehicle) (recentBookings : List RBooking) :
    List.Sorted sugGe
      (generateRebalanceSuggestions distFn vehicles recentBookings) := by
  unfold generateRebalanceSuggestions
  split
  · exact List.sorted_nil
  · exact List.sorted_insertionSort sugGe _

/-- Reading any id through an applied suggestion sees the conditional
update. -/
lemma lookupRVehicle_apply (vs : List RVehicle) (sug : Suggestion)
    (id : String) :
    lookupRVehicle (applyRebalanceSuggestion vs sug) id =
      (lookupRVehicle vs id).map (fun v =>
        if v.id == sug.vehicleId then
          { v with targetLocation := some sug.targetLocation
                   rebalanceReason := some sug.reason
                   rebalanceTimestamp := some 1 }
        else v) := by
  unfold lookupRVehicle applyRebalanceSuggestion
  rw [List.find?_map]
  have hpg : ((fun v : RVehicle => v.id == id) ∘ fun v =>
      if v.id == sug.vehicleId then
        { v with targetLocation := some sug.targetLocation
                 rebalanceReason := some sug.reason
                 rebalanceTimestamp := some 1 }
      else v) = fun v : RVehicle => v.id == id := by
    funext v
    by_cases hv : (v.id == sug.vehicleId) = true
    · simp [Function.comp, hv]
    · simp [Function.comp, hv]
  rw [hpg]

/-- Applying a suggestion does not touch vehicles with a different id. -/
lemma lookupRVehicle_apply_other {vs : List RVehicle} {sug : Suggestion}
    {id : String} (h : id ≠ sug.vehicleId) :
    lookupRVehicle (applyRebalanceSuggestion vs sug) id =
      lookupRVehicle vs id := by
  rw [lookupRVehicle_apply]
  cases hf : lookupRVehicle vs id with
  | none => rfl
  | some v =>
    have hf2 : vs.find? (fun v => v.id == id) = some v := hf
    have hvid : v.id = id := eq_of_beq (by simpa using List.find?_some hf2)
    rw [Option.map_some']
    rw [if_neg (by simp [hvid, h])]

/-- Applying a suggestion writes the three fields onto its vehicle. -/
lemma lookupRVehicle_apply_self {vs : List RVehicle} {sug : Suggestion}
    {v : RVehicle} (h : lookupRVehicle vs sug.vehicleId = some v) :
    lookupRVehicle (applyRebalanceSuggestion vs sug) sug.vehicleId =
      some { v with targetLocation := some sug.targetLocation
                    rebalanceReason := some sug.reason
                    rebalanceTimestamp := some 1 } := by
  rw [lookupRVehicle_apply, h]
  have hf2 : vs.find? (fun x => x.id == sug.vehicleId) = some v := h
  have hvid : (v.id == sug.vehicleId) = true := by
    simpa using List.find?_some hf2
  rw [Option.map_some']
  rw [if_pos hvid]

/-- Applying a batch of suggestions does not touch any unlisted id. -/
lemma lookupRVehicle_foldl_not_mem :
    ∀ (top : List Suggestion) (vs : List RVehicle) (id : String),
      id ∉ top.map Suggestion.vehicleId →
      lookupRVehicle (top.foldl applyRebalanceSuggestion vs) id =
        lookupRVehicle vs id
  | [], _, _, _ => rfl
  | t :: rest, vs, id, h => by
    simp only [List.map_cons, List.mem_cons] at h
    push_neg at h
    simp only [List.foldl_cons]
    rw [lookupRVehicle_foldl_not_mem rest _ id h.2]
    exact lookupRVehicle_apply_other h.1

/-- Applying a batch of suggestions with pairwise distinct vehicle ids
writes each listed suggestion onto its vehicle. -/
lemma lookupRVehicle_foldl_mem :
    ∀ (top : List Suggestion) (vs : List RVehicle) (s : Suggestion),
      s ∈ top → (top.map Suggestion.vehicleId).Nodup →
      ∀ v, lookupRVehicle vs s.vehicleId = some v →
      lookupRVehicle (top.foldl applyRebalanceSuggestion vs) s.vehicleId =
        some { v with targetLocation := some s.targetLocation
                      rebalanceReason := some s.reason
                      rebalanceTimestamp := some 1 }
  | [], _, _, hmem, _, _, _ => absurd hmem (List.not_mem_nil _)
  | t :: rest, vs, s, hmem, hnodup, v, hv => by
    simp only [List.map_cons, List.nodup_cons] at hnodup
    obtain ⟨hnotin, hnodup2⟩ := hnodup
    simp only [List.foldl_cons]
    rcases List.mem_cons.mp hmem with rfl | hmem2
    · rw [lookupRVehicle_foldl_not_mem rest _ s.vehicleId hnotin]
      exact lookupRVehicle_apply_self hv
    · have hne : s.vehicleId ≠ t.vehicleId := by
        intro he
        exact hnotin (he ▸ List.mem_map.mpr ⟨s, hmem2, rfl⟩)
      exact lookupRVehicle_foldl_mem rest _ s hmem2 hnodup2 v
        (by rw [lookupRVehicle_apply_other hne]; exact hv)

/-- C5: with autoApply set, runRebalancer reports the full priority-sorted
suggestion list, applies exactly the first min(3, n) of them (writing
target location, reason and timestamp onto each suggested vehicle, given
unique vehicle ids), and leaves every vehicle outside that prefix
untouched. -/
theorem claim5_autoapply_top3 (distFn : Coord → Coord → ℚ)
    (vehicles : List RVehicle) (recentBookings : List RBooking)
    (sugs : List Suggestion) (n : ℕ) (vehicles2 : List RVehicle)
    (hrun : runRebalancer distFn vehicles recentBookings true =
      (sugs, n, vehicles2)) :
    sugs = generateRebalanceSuggestions distFn vehicles recentBookings ∧
      n = min 3 sugs.length ∧
      List.Sorted sugGe sugs ∧
      (∀ id, id ∉ (sugs.take 3).map Suggestion.vehicleId →
        lookupRVehicle vehicles2 id = lookupRVehicle vehicles id) ∧
      ((vehicles.map RVehicle.id).Nodup →
        ∀ s ∈ sugs.take 3, ∀ v,
          lookupRVehicle vehicles s.vehicleId = some v →
          lookupRVehicle vehicles2 s.vehicleId = some
            { v with targetLocation := some s.targetLocation
                     rebalanceReason := some s.reason
                     rebalanceTimestamp := some 1 }) := by
  unfold runRebalancer at hrun
  dsimp only at hrun
  split at hrun
  next hne =>
    injection hrun with h1 h2
    injection h2 with h2 h3
    subst h1
    subst h2
    subst h3
    refine ⟨rfl, List.length_take 3 _, generate_sorted distFn vehicles
      recentBookings, ?_, ?_⟩
    · intro id hid
      exact lookupRVehicle_foldl_not_mem _ _ _ hid
    · intro hnodup s hs v hv
      refine lookupRVehicle_foldl_mem _ _ _ hs ?_ v hv
      rw [List.map_take]
      exact (List.take_sublist 3 _).nodup (generate_ids_nodup hnodup)
  next hne =>
    injection hrun with h1 h2
    injection h2 with h2 h3
    subst h1
    subst h2
    subst h3
    have hemp : generateRebalanceSuggestions distFn vehicles recentBookings
        = [] := by
      rcases Bool.eq_false_or_eq_true
        (generateRebalanceSuggestions distFn vehicles
          recentBookings).isEmpty with hb | hb
      · exact List.isEmpty_iff.mp hb
      · exact absurd (by rw [hb]; rfl) hne
    refine ⟨rfl, by rw [hemp]; simp, ?_, ?_, ?_⟩
    · rw [hemp]
      exact List.sorted_nil
    · intro id hid
      rfl
    · intro hnodup s hs
      rw [hemp] at hs
      cases hs

/-! ### A concrete rebalancing scenario -/

/-- A constant 2 km distance function. -/
def dTwo : Coord → Coord → ℚ := fun _ _ => 2

/-- An idle vehicle with no passengers at (1, 1). -/
def vR1 : RVehicle :=
  { id := "v1", status := "idle", location := some { lat := 1, lng := 1 },
    currentPassengers := some [], targetLocation := none,
    rebalanceReason := none, rebalanceTimestamp := none }

/-- A recent booking with pickup (5, 6). -/
def bk5 : RBooking := { pickup := some { lat := 5, lng := 6 } }

/-- The hotspot formed by bk5. -/
def hot1 : Hotspot := { location := { lat := 5, lng := 6 }, count := 1 }

/-- The suggestion produced for vR1 and hot1. -/
def sug1 : Suggestion := mkSuggestion vR1 { lat := 1, lng := 1 } hot1 2

/-- Clustering the single booking yields a single count-1 hotspot. -/
lemma eval_hotspots : identifyHotspots dTwo [bk5] = [hot1] := by
  unfold identifyHotspots
  simp only [List.foldl_cons, List.foldl_nil]
  have hstep : clusterStep dTwo [] bk5 = [hot1] := by
    unfold clusterStep
    rw [show usableCoord bk5.pickup = some { lat := 5, lng := 6 } from
      by decide]
    rfl
  rw [hstep]
  rfl

/-- The hotspot scan for vR1 suggests hot1. -/
lemma eval_find :
    findSuggestion dTwo [vR1] vR1 { lat := 1, lng := 1 } [hot1] =
      some sug1 := by
  unfold findSuggestion
  rw [if_neg (show ¬ anotherVehicleNearby dTwo [vR1] vR1 hot1 = true from
    by decide)]
  dsimp only
  rw [if_pos (show (1:ℚ)/2 < dTwo { lat := 1, lng := 1 } hot1.location from
    by norm_num [dTwo])]
  rfl

/-- The per-vehicle body for vR1 produces sug1. -/
lemma eval_vehSug : vehicleSuggestion dTwo [vR1] [hot1] vR1 = some sug1 := by
  unfold vehicleSuggestion
  rw [show usableCoord vR1.location = some { lat := 1, lng := 1 } from
    by decide]
  exact eval_find

/-- The whole generation pipeline on the concrete scenario. -/
lemma eval_gen : generateRebalanceSuggestions dTwo [vR1] [bk5] = [sug1] := by
  unfold generateRebalanceSuggestions
  rw [if_neg (show ¬ ((getIdleVehicles [vR1]).isEmpty ||
    ([bk5] : List RBooking).isEmpty) = true from by decide)]
  rw [show getIdleVehicles [vR1] = [vR1] from by decide]
  rw [eval_hotspots]
  simp only [List.foldl_cons, List.foldl_nil]
  rw [eval_vehSug]
  rfl

/-- The whole run on the concrete scenario applies its one suggestion. -/
lemma eval_run :
    runRebalancer dTwo [vR1] [bk5] true =
      ([sug1], 1, applyRebalanceSuggestion [vR1] sug1) := by
  unfold runRebalancer
  rw [eval_gen]
  rfl

/-- Witness for C6: the concrete suggestion for one idle vehicle and one
hotspot has priority between 0 and 10. -/
theorem claim6_witness : 0 ≤ sug1.priority ∧ sug1.priority ≤ 10 :=
  (claim6_priority_formula dTwo [vR1] [bk5] sug1
    (by rw [eval_gen]; exact List.mem_singleton.mpr rfl)).1

/-- Witness for C10: the concrete suggestion targets a vehicle of the idle
list. -/
theorem claim10_witness :
    sug1.vehicleId ∈ (getIdleVehicles [vR1]).map RVehicle.id :=
  (claim10_rebalance_only_empty_vehicles dTwo [vR1] [bk5] sug1
    (by rw [eval_gen]; exact List.mem_singleton.mpr rfl)).1

/-- Witness for C5: the concrete run reports one applied suggestion and
writes the three rebalance fields onto the suggested vehicle. -/
theorem claim5_witness :
    (1 = min 3 ([sug1] : List Suggestion).length) ∧
      lookupRVehicle (applyRebalanceSuggestion [vR1] sug1) sug1.vehicleId =
        some { vR1 with
               targetLocation := some sug1.targetLocation
               rebalanceReason := some sug1.reason
               rebalanceTimestamp := some 1 } := by
  have h := claim5_autoapply_top3 dTwo [vR1] [bk5] [sug1] 1
    (applyRebalanceSuggestion [vR1] sug1) eval_run
  refine ⟨h.2.1, ?_⟩
  exact h.2.2.2.2 (by decide) sug1 (by simp) vR1 rfl

end Dropee
